import Mathlib

/-!
Shallow embedding of the To-Do List application's task engine

This file embeds the task engine of the repository (`task_manager.py`) in
Lean 4 and proves/refutes the specification's claims about it.

Modelling conventions:

* Python `datetime` values are modelled as integer microseconds since the
  epoch (`DateTime := Int`): `datetime` is totally ordered, supports
  `timedelta` arithmetic at microsecond resolution, and
  `isoformat`/`fromisoformat` round-trip any value exactly, so a validly
  serialized datetime is modelled as carrying its value.
* The several `datetime.now()` calls issued inside one operation are
  modelled as a single instant `now` passed to the operation.
* `str(uuid.uuid4())[:8]` is modelled by a caller-supplied fresh string
  (`genId`), since only its uniqueness matters.
* The manager's mutable `self.tasks` list is threaded explicitly as a
  `List Task`; the persistence port (`self.db`) is modelled by the stored
  record list `db : List TaskRecord` together with a boolean `saveOk`
  giving the outcome of `db.save_user_tasks` for the present call.
* Python dictionaries returned to the caller (category/priority breakdowns)
  are modelled extensionally, as counting functions.
-/

namespace Todo

/-- Python `datetime`, as integer microseconds since the epoch. -/
abbrev DateTime := Int

def microsecondsPerDay : Int := 86400000000

/-- Constant `timedelta(days=7)` from `Task.__init__`. -/
def sevenDays : Int := 7 * microsecondsPerDay

/-- Embeds `datetime.date()`: the calendar day containing an instant
(floor division by the length of a day). -/
def DateTime.toDate (d : DateTime) : Int := Int.fdiv d microsecondsPerDay

/-- Constant `datetime.max` (9999-12-31 23:59:59.999999), used by `sort_tasks` as the
key for tasks without a due date. -/
def datetimeMax : DateTime := 253402300799999999

/-- Python `str.strip()`: remove whitespace from both ends. -/
def pyStrip (s : String) : String :=
  ⟨((s.data.dropWhile Char.isWhitespace).reverse.dropWhile Char.isWhitespace).reverse⟩

/-- Python `str.lower()`. -/
def pyLower (s : String) : String := ⟨s.data.map Char.toLower⟩

/-- The `Task` entity of `task_manager.py` (its nine instance attributes). -/
structure Task where
  id : String
  name : String
  priority : String
  due_date : Option DateTime
  category : String
  status : String
  description : String
  created_at : DateTime
  updated_at : DateTime
deriving DecidableEq

/-- Embeds `Task.__init__(name, priority, due_date, category, status, description)`:
sets the attributes, generates the id, stamps `created_at`/`updated_at`, and
applies the default due date (`now + 7 days`) when `due_date` is falsy
(i.e. `None`: a `datetime` object is always truthy). -/
def Task.init (genId : String) (now : DateTime) (name : String)
    (priority : String) (due_date : Option DateTime) (category : String)
    (status : String) (description : String) : Task :=
  { id := genId
    name := name
    priority := priority
    due_date := match due_date with
      | some d => some d
      | none => some (now + sevenDays)
    category := category
    status := status
    description := description
    created_at := now
    updated_at := now }

/-- A date-valued entry of a stored task record, as `Task.from_dict` can
observe it: the key is absent or its value falsy (`data.get(k)` falsy),
present but not parseable by `datetime.fromisoformat` (malformed), or a
validly encoded instant. -/
inductive DateField where
  | missing : DateField
  | malformed : DateField
  | valid : DateTime → DateField
deriving DecidableEq

/-- The stored dictionary shape produced/consumed by
`Task.to_dict`/`Task.from_dict`.  `name` is required (`data['name']`);
the other text fields are `none` when the key is absent. -/
structure TaskRecord where
  id : Option String
  name : String
  priority : Option String
  due_date : DateField
  category : Option String
  status : Option String
  description : Option String
  created_at : DateField
  updated_at : DateField
deriving DecidableEq

/-- Embeds `Task.to_dict`: every attribute serialized; datetimes via `isoformat`
(lossless), a `None` due date stored as `None`. -/
def Task.to_dict (t : Task) : TaskRecord :=
  { id := some t.id
    name := t.name
    priority := some t.priority
    due_date := match t.due_date with
      | some d => DateField.valid d
      | none => DateField.missing
    category := some t.category
    status := some t.status
    description := some t.description
    created_at := DateField.valid t.created_at
    updated_at := DateField.valid t.updated_at }

/-- Embeds `Task.from_dict`: parse the three dates with fallback (`None` for
`due_date`, `now` for `created_at`/`updated_at`), build the task through
`Task.__init__` (substituting the documented defaults for absent optional
fields), then overwrite id and the creation/update stamps. -/
def Task.from_dict (genId : String) (now : DateTime) (data : TaskRecord) : Task :=
  let due_date : Option DateTime := match data.due_date with
    | DateField.valid d => some d
    | _ => none
  let created_at : DateTime := match data.created_at with
    | DateField.valid d => d
    | _ => now
  let updated_at : DateTime := match data.updated_at with
    | DateField.valid d => d
    | _ => now
  let task := Task.init genId now data.name (data.priority.getD "Medium")
      due_date (data.category.getD "General") (data.status.getD "Pending")
      (data.description.getD "")
  { task with
      id := data.id.getD task.id
      created_at := created_at
      updated_at := updated_at }

/-- Embeds `Task.is_overdue`: false when there is no due date or the status is
`'Completed'`; otherwise `due_date < now`. -/
def Task.is_overdue (t : Task) (now : DateTime) : Bool :=
  match t.due_date with
  | none => false
  | some d => if t.status = "Completed" then false else decide (d < now)

/-- Embeds `Task.days_until_due`: calendar-day difference to the due date, or
`none` when there is no due date. -/
def Task.days_until_due (t : Task) (now : DateTime) : Option Int :=
  match t.due_date with
  | none => none
  | some d => some (DateTime.toDate d - DateTime.toDate now)

/-- Result of one `TaskManager` mutation call: the in-memory list
afterwards, the persisted record list afterwards, and the returned
`(success, message)` pair. -/
structure OpResult where
  tasks : List Task
  db : List TaskRecord
  ok : Bool
  msg : String
deriving DecidableEq

/-- Embeds `TaskManager.load_tasks`: deserialize every stored record, in order
(`gen i` supplies the uuid the i-th `Task.__init__` call would generate). -/
def load_tasks (gen : Nat → String) (now : DateTime)
    (db : List TaskRecord) : List Task :=
  db.enum.map (fun p => Task.from_dict (gen p.1) now p.2)

/-- Embeds `TaskManager.get_task_by_id`: first task with the given id, else `None`. -/
def get_task_by_id (tasks : List Task) (task_id : String) : Option Task :=
  tasks.find? (fun t => t.id == task_id)

/-- Replace the first element satisfying `p` by its image under `f`
(Python mutates, in place, the object `get_task_by_id` returned — the first
match in the list). -/
def updateFirst {α : Type} (p : α → Bool) (f : α → α) : List α → List α
  | [] => []
  | x :: xs => if p x then f x :: xs else x :: updateFirst p f xs

/-- Embeds `list.remove(obj)` for the object `get_task_by_id` returned: removes the
first element with the matching id. -/
def removeFirst {α : Type} (p : α → Bool) : List α → List α
  | [] => []
  | x :: xs => if p x then xs else x :: removeFirst p xs

/-- Embeds `TaskManager.add_task`: validate the name, construct the task (status
left at its `'Pending'` default), append, save; on save failure remove the
appended task again and report failure. -/
def add_task (saveOk : Bool) (genId : String) (now : DateTime)
    (db : List TaskRecord) (tasks : List Task) (name : String)
    (priority : String) (due_date : Option DateTime) (category : String)
    (description : String) : OpResult :=
  if pyStrip name = "" then
    ⟨tasks, db, false, "Task name cannot be empty"⟩
  else if 200 < (pyStrip name).length then
    ⟨tasks, db, false, "Task name is too long (max 200 characters)"⟩
  else
    let task := Task.init genId now (pyStrip name) priority due_date category
        "Pending" description
    let tasks' := tasks ++ [task]
    if saveOk then
      ⟨tasks', tasks'.map Task.to_dict, true,
        "Task " ++ name ++ " added successfully"⟩
    else
      ⟨tasks, db, false, "Failed to save task to database"⟩

/-- One keyword argument of `update_task(task_id, **kwargs)`.  Each known
constructor is a keyword naming the corresponding `Task` attribute, with its
value at the type that attribute holds (the repository's callers pass only
such values); the inner `none` models Python `None`.  `unknown k isNone`
models a keyword `k` that is not an attribute of `Task` (so
`hasattr(task, k)` is false), recording whether its value is `None`. -/
inductive FieldUpd where
  | id : Option String → FieldUpd
  | name : Option String → FieldUpd
  | priority : Option String → FieldUpd
  | due_date : Option DateTime → FieldUpd
  | category : Option String → FieldUpd
  | status : Option String → FieldUpd
  | description : Option String → FieldUpd
  | created_at : Option DateTime → FieldUpd
  | updated_at : Option DateTime → FieldUpd
  | unknown : String → Bool → FieldUpd
deriving DecidableEq

/-- One iteration of the update loop:
`if hasattr(task, key) and value is not None: setattr(task, key, value)`.
`None` values and unknown attribute names leave the task unchanged. -/
def setattrStep (t : Task) : FieldUpd → Task
  | FieldUpd.id (some v) => { t with id := v }
  | FieldUpd.name (some v) => { t with name := v }
  | FieldUpd.priority (some v) => { t with priority := v }
  | FieldUpd.due_date (some d) => { t with due_date := some d }
  | FieldUpd.category (some v) => { t with category := v }
  | FieldUpd.status (some v) => { t with status := v }
  | FieldUpd.description (some v) => { t with description := v }
  | FieldUpd.created_at (some d) => { t with created_at := d }
  | FieldUpd.updated_at (some d) => { t with updated_at := d }
  | _ => t

/-- The whole `for key, value in kwargs.items()` loop, in insertion order. -/
def applyKwargs (kw : List FieldUpd) (t : Task) : Task := kw.foldl setattrStep t

/-- Embeds the lookup `kwargs['name']` when `'name' in kwargs` (Python keyword arguments have
unique keys). -/
def kwargsNameVal (kw : List FieldUpd) : Option (Option String) :=
  match kw.find? (fun u => match u with | FieldUpd.name _ => true | _ => false) with
  | some (FieldUpd.name v) => some v
  | _ => none

/-- Embeds `kwargs['name'] = name`: replace the value stored under the `name` key. -/
def setKwargsName (kw : List FieldUpd) (n : String) : List FieldUpd :=
  kw.map (fun u => match u with
    | FieldUpd.name _ => FieldUpd.name (some n)
    | u => u)

/-- Tail of `TaskManager.update_task` after validation: run the setattr
loop on the found task, refresh `updated_at`, save.  On save failure the
method returns failure but performs no rollback. -/
def update_task_apply (saveOk : Bool) (now : DateTime) (db : List TaskRecord)
    (tasks : List Task) (task_id : String) (kw : List FieldUpd) : OpResult :=
  let tasks' := updateFirst (fun t => t.id == task_id)
      (fun t => { applyKwargs kw t with updated_at := now }) tasks
  if saveOk then
    ⟨tasks', tasks'.map Task.to_dict, true, "Task updated successfully"⟩
  else
    ⟨tasks', db, false, "Failed to save changes"⟩

/-- Embeds `TaskManager.update_task`: look the task up by id; when the `name`
keyword is present AND truthy (a non-empty string), validate its stripped
form and store the stripped form back into `kwargs`; then apply the loop. -/
def update_task (saveOk : Bool) (now : DateTime) (db : List TaskRecord)
    (tasks : List Task) (task_id : String) (kw : List FieldUpd) : OpResult :=
  match get_task_by_id tasks task_id with
  | none => ⟨tasks, db, false, "Task not found"⟩
  | some _ =>
    match kwargsNameVal kw with
    | some (some s) =>
      if s = "" then
        update_task_apply saveOk now db tasks task_id kw
      else
        let n := pyStrip s
        if n = "" then ⟨tasks, db, false, "Task name cannot be empty"⟩
        else if 200 < n.length then
          ⟨tasks, db, false, "Task name is too long (max 200 characters)"⟩
        else update_task_apply saveOk now db tasks task_id (setKwargsName kw n)
    | _ => update_task_apply saveOk now db tasks task_id kw

/-- Embeds `TaskManager.delete_task`: remove the found task and save; on save
failure re-insert it (Python appends it at the END of the list). -/
def delete_task (saveOk : Bool) (db : List TaskRecord) (tasks : List Task)
    (task_id : String) : OpResult :=
  match get_task_by_id tasks task_id with
  | none => ⟨tasks, db, false, "Task not found"⟩
  | some task =>
    let tasks' := removeFirst (fun t => t.id == task_id) tasks
    if saveOk then
      ⟨tasks', tasks'.map Task.to_dict, true,
        "Task " ++ task.name ++ " deleted successfully"⟩
    else
      ⟨tasks' ++ [task], db, false, "Failed to save changes"⟩

/-- Embeds `TaskManager.mark_completed`. -/
def mark_completed (saveOk : Bool) (now : DateTime) (db : List TaskRecord)
    (tasks : List Task) (task_id : String) : OpResult :=
  update_task saveOk now db tasks task_id [FieldUpd.status (some "Completed")]

/-- Embeds `TaskManager.mark_pending`. -/
def mark_pending (saveOk : Bool) (now : DateTime) (db : List TaskRecord)
    (tasks : List Task) (task_id : String) : OpResult :=
  update_task saveOk now db tasks task_id [FieldUpd.status (some "Pending")]

/-- Embeds `TaskManager.get_tasks_by_status(status=None)`: filter on exact status;
a falsy argument (`None` or the empty string) returns the whole list. -/
def get_tasks_by_status (tasks : List Task) (status : Option String) : List Task :=
  match status with
  | some s => if s = "" then tasks else tasks.filter (fun t => t.status == s)
  | none => tasks

/-- Embeds `TaskManager.get_overdue_tasks`: overdue and (redundantly) not
completed. -/
def get_overdue_tasks (now : DateTime) (tasks : List Task) : List Task :=
  tasks.filter (fun t => t.is_overdue now && t.status != "Completed")

/-- Embeds `TaskManager.get_tasks_due_soon(days=3)`: due date's calendar day within
`[today, today + days]`, status not completed. -/
def get_tasks_due_soon (now : DateTime) (days : Int) (tasks : List Task) : List Task :=
  let today := DateTime.toDate now
  let due_date := today + days
  tasks.filter (fun t =>
    match t.due_date with
    | none => false
    | some d => t.status != "Completed" &&
        decide (today ≤ DateTime.toDate d) && decide (DateTime.toDate d ≤ due_date))

/-- Python `round(x, 2)` (half-to-even), with the engine's float arithmetic
idealised as exact rational arithmetic. -/
def roundHalfEven (q : ℚ) : Int :=
  if q - ⌊q⌋ < 1/2 then ⌊q⌋
  else if 1/2 < q - ⌊q⌋ then ⌊q⌋ + 1
  else if ⌊q⌋ % 2 = 0 then ⌊q⌋ else ⌊q⌋ + 1

def round2 (q : ℚ) : ℚ := (roundHalfEven (q * 100) : ℚ) / 100

/-- The dictionary returned by `TaskManager.get_task_statistics`; the two
breakdown dictionaries are modelled extensionally as counting functions. -/
structure Stats where
  total_tasks : Nat
  completed_tasks : Nat
  pending_tasks : Nat
  overdue_tasks : Nat
  due_soon_tasks : Nat
  completion_rate : ℚ
  categories : String → Nat
  priorities : String → Nat

/-- Embeds `TaskManager.get_task_statistics`.  Note that `pending` is computed as
`len(self.get_tasks_by_status('Pending'))`, a literal status filter. -/
def get_task_statistics (now : DateTime) (tasks : List Task) : Stats :=
  let total := tasks.length
  let completed := (get_tasks_by_status tasks (some "Completed")).length
  let pending := (get_tasks_by_status tasks (some "Pending")).length
  let overdue := (get_overdue_tasks now tasks).length
  let due_soon := (get_tasks_due_soon now 3 tasks).length
  let completion_rate : ℚ :=
    if 0 < total then (completed : ℚ) / (total : ℚ) * 100 else 0
  { total_tasks := total
    completed_tasks := completed
    pending_tasks := pending
    overdue_tasks := overdue
    due_soon_tasks := due_soon
    completion_rate := round2 completion_rate
    categories := fun c => tasks.countP (fun t => t.category == c)
    priorities := fun p => tasks.countP (fun t => t.priority == p) }

/-- Dictionary lookup with default 3 over the priority-rank table of
`sort_tasks` (High 0, Medium 1, Low 2). -/
def priority_order (p : String) : Nat :=
  if p = "High" then 0 else if p = "Medium" then 1 else if p = "Low" then 2 else 3

/-- Dictionary lookup with default 4 over the status-rank table of
`sort_tasks` (Pending 0, In Progress 1, Completed 2, Cancelled 3). -/
def status_order (s : String) : Nat :=
  if s = "Pending" then 0 else if s = "In Progress" then 1
  else if s = "Completed" then 2 else if s = "Cancelled" then 3 else 4

/-- Embeds `TaskManager.sort_tasks`: Python `sorted` is a stable sort by the given
key, modelled by the stable `List.mergeSort` with comparison
`key a ≤ key b`; `reverse=True` (the `created_at` branch) is a stable
descending sort, i.e. the flipped comparison. -/
def sort_tasks (tasks : List Task) (sort_by : String) : List Task :=
  if sort_by = "due_date" then
    List.mergeSort tasks (fun a b =>
      decide (a.due_date.getD datetimeMax ≤ b.due_date.getD datetimeMax))
  else if sort_by = "priority" then
    List.mergeSort tasks (fun a b =>
      decide (priority_order a.priority ≤ priority_order b.priority))
  else if sort_by = "name" then
    List.mergeSort tasks (fun a b => decide (¬ pyLower b.name < pyLower a.name))
  else if sort_by = "created_at" then
    List.mergeSort tasks (fun a b => decide (b.created_at ≤ a.created_at))
  else if sort_by = "status" then
    List.mergeSort tasks (fun a b =>
      decide (status_order a.status ≤ status_order b.status))
  else tasks

/-- Embeds `TaskManager.clear_completed_tasks`: if nothing is completed succeed
with the distinct message; otherwise drop every completed task and save;
on save failure reload the collection from persistence. -/
def clear_completed_tasks (saveOk : Bool) (gen : Nat → String) (now : DateTime)
    (db : List TaskRecord) (tasks : List Task) : OpResult :=
  let completed_tasks := tasks.filter (fun t => t.status == "Completed")
  if completed_tasks.isEmpty then
    ⟨tasks, db, true, "No completed tasks to remove"⟩
  else
    let tasks' := tasks.filter (fun t => t.status != "Completed")
    if saveOk then
      ⟨tasks', tasks'.map Task.to_dict, true, "Removed completed tasks"⟩
    else
      ⟨load_tasks gen now db, db, false, "Failed to save changes"⟩

/-- Keyword arguments on which the update loop is a no-op: a value of
`None` (any key), or a key that is not a `Task` attribute. -/
def FieldUpd.ignorable : FieldUpd → Bool
  | FieldUpd.id none => true
  | FieldUpd.name none => true
  | FieldUpd.priority none => true
  | FieldUpd.due_date none => true
  | FieldUpd.category none => true
  | FieldUpd.status none => true
  | FieldUpd.description none => true
  | FieldUpd.created_at none => true
  | FieldUpd.updated_at none => true
  | FieldUpd.unknown _ _ => true
  | _ => false

/-! Helper lemmas shared by the claim proofs. -/

/-- Serialize-then-deserialize is the identity on tasks that have a due
date. -/
theorem from_dict_to_dict_of_some (genId : String) (now : DateTime)
    (t : Task) (d : DateTime) (h : t.due_date = some d) :
    Task.from_dict genId now (Task.to_dict t) = t := by
  cases t
  simp only [Option.some.injEq] at h
  simp [Task.from_dict, Task.to_dict, Task.init, h]

/-- Reloading the serialization of a collection whose tasks all have due
dates reproduces the collection. -/
theorem load_tasks_map_to_dict (gen : Nat → String) (now : DateTime)
    (tasks : List Task) (h : ∀ t ∈ tasks, t.due_date ≠ none) :
    load_tasks gen now (tasks.map Task.to_dict) = tasks := by
  have key : ∀ (n : Nat),
      ((tasks.map Task.to_dict).enumFrom n).map
        (fun p => Task.from_dict (gen p.1) now p.2) = tasks := by
    induction tasks with
    | nil => intro n; rfl
    | cons t ts ih =>
      intro n
      have hd : t.due_date ≠ none := h t (List.mem_cons_self t ts)
      obtain ⟨d, hdd⟩ := Option.ne_none_iff_exists'.mp hd
      simp only [List.map_cons, List.enumFrom, List.map]
      rw [from_dict_to_dict_of_some (gen n) now t d hdd,
        ih (fun x hx => h x (List.mem_cons_of_mem _ hx)) (n + 1)]
  simpa [load_tasks, List.enum] using key 0

/-- A single setattr step that is not an id assignment keeps the id. -/
theorem setattrStep_id (t : Task) (u : FieldUpd)
    (h : ∀ v, u ≠ FieldUpd.id (some v)) : (setattrStep t u).id = t.id := by
  cases u with
  | id v =>
    cases v with
    | none => rfl
    | some v => exact absurd rfl (h v)
  | name v => cases v <;> rfl
  | priority v => cases v <;> rfl
  | due_date v => cases v <;> rfl
  | category v => cases v <;> rfl
  | status v => cases v <;> rfl
  | description v => cases v <;> rfl
  | created_at v => cases v <;> rfl
  | updated_at v => cases v <;> rfl
  | unknown k b => rfl

/-- The update loop keeps the id when no id assignment is supplied. -/
theorem applyKwargs_id (kw : List FieldUpd) (t : Task)
    (h : ∀ v, FieldUpd.id (some v) ∉ kw) : (applyKwargs kw t).id = t.id := by
  induction kw generalizing t with
  | nil => rfl
  | cons u rest ih =>
    have h1 := ih (setattrStep t u) (fun v hv => h v (List.mem_cons_of_mem _ hv))
    have h2 := setattrStep_id t u (fun v hv => h v (hv ▸ List.mem_cons_self _ _))
    simpa [applyKwargs] using h1.trans h2

/-- A single setattr step that is not a due-date assignment keeps the due
date. -/
theorem setattrStep_due_date (t : Task) (u : FieldUpd)
    (h : ∀ d, u ≠ FieldUpd.due_date (some d)) :
    (setattrStep t u).due_date = t.due_date := by
  cases u with
  | due_date v =>
    cases v with
    | none => rfl
    | some d => exact absurd rfl (h d)
  | id v => cases v <;> rfl
  | name v => cases v <;> rfl
  | priority v => cases v <;> rfl
  | category v => cases v <;> rfl
  | status v => cases v <;> rfl
  | description v => cases v <;> rfl
  | created_at v => cases v <;> rfl
  | updated_at v => cases v <;> rfl
  | unknown k b => rfl

/-- The update loop keeps the due date when no due-date assignment is
supplied. -/
theorem applyKwargs_due_date (kw : List FieldUpd) (t : Task)
    (h : ∀ d, FieldUpd.due_date (some d) ∉ kw) :
    (applyKwargs kw t).due_date = t.due_date := by
  induction kw generalizing t with
  | nil => rfl
  | cons u rest ih =>
    have h1 := ih (setattrStep t u) (fun d hd => h d (List.mem_cons_of_mem _ hd))
    have h2 := setattrStep_due_date t u (fun d hd => h d (hd ▸ List.mem_cons_self _ _))
    simpa [applyKwargs] using h1.trans h2

/-- Storing the validated name back into `kwargs` introduces no id
assignment. -/
theorem setKwargsName_id (kw : List FieldUpd) (n : String)
    (h : ∀ v, FieldUpd.id (some v) ∉ kw) (v : String) :
    FieldUpd.id (some v) ∉ setKwargsName kw n := by
  intro hmem
  obtain ⟨u, hu, hq⟩ := List.mem_map.mp hmem
  cases u <;> simp only [setKwargsName] at hq <;> first
    | exact FieldUpd.noConfusion hq
    | exact h v (hq ▸ hu)

/-- Storing the validated name back into `kwargs` introduces no due-date
assignment. -/
theorem setKwargsName_due_date (kw : List FieldUpd) (n : String)
    (h : ∀ d, FieldUpd.due_date (some d) ∉ kw) (d : DateTime) :
    FieldUpd.due_date (some d) ∉ setKwargsName kw n := by
  intro hmem
  obtain ⟨u, hu, hq⟩ := List.mem_map.mp hmem
  cases u <;> simp only [setKwargsName] at hq <;> first
    | exact FieldUpd.noConfusion hq
    | exact h d (hq ▸ hu)

/-- Mapping a projection that the in-place mutation preserves commutes with
`updateFirst`. -/
theorem map_updateFirst {α β : Type} (proj : α → β) (p : α → Bool)
    (f : α → α) (l : List α) (h : ∀ x, proj (f x) = proj x) :
    (updateFirst p f l).map proj = l.map proj := by
  induction l with
  | nil => rfl
  | cons x xs ih =>
    by_cases hp : p x = true
    · simp [updateFirst, hp, h x]
    · simp only [Bool.not_eq_true] at hp
      simp [updateFirst, hp, ih]

/-- The element `find?` returns, in front of the remainder after its
removal, is a permutation of the list. -/
theorem perm_cons_removeFirst {α : Type} (p : α → Bool) :
    ∀ (l : List α) (x : α), l.find? p = some x →
    List.Perm l (x :: removeFirst p l) := by
  intro l
  induction l with
  | nil => intro x h; exact absurd h (by simp)
  | cons a as ih =>
    intro x h
    by_cases hpa : p a = true
    · rw [List.find?_cons_of_pos _ hpa] at h
      cases h
      simp [removeFirst, hpa]
    · simp only [Bool.not_eq_true] at hpa
      rw [List.find?_cons_of_neg _ (by simp [hpa])] at h
      have hperm := ih x h
      have hswap : List.Perm (a :: x :: removeFirst p as) (x :: a :: removeFirst p as) :=
        List.Perm.swap x a _
      have heq : x :: a :: removeFirst p as = x :: removeFirst p (a :: as) := by
        simp [removeFirst, hpa]
      exact heq ▸ List.Perm.trans (List.Perm.cons a hperm) hswap

/-- The in-memory list produced by `update_task` has an unchanged image
under any projection that every reachable setattr loop preserves. -/
theorem update_task_tasks_map {β : Type} (proj : Task → β) (saveOk : Bool)
    (now : DateTime) (db : List TaskRecord) (tasks : List Task)
    (task_id : String) (kw : List FieldUpd)
    (happly : ∀ (kw' : List FieldUpd),
      (kw' = kw ∨ ∃ n, kw' = setKwargsName kw n) →
      ∀ t, proj { applyKwargs kw' t with updated_at := now } = proj t) :
    ((update_task saveOk now db tasks task_id kw).tasks).map proj
      = tasks.map proj := by
  have htail : ∀ (kw' : List FieldUpd),
      (kw' = kw ∨ ∃ n, kw' = setKwargsName kw n) →
      ((update_task_apply saveOk now db tasks task_id kw').tasks).map proj
        = tasks.map proj := by
    intro kw' hkw'
    have hx : (update_task_apply saveOk now db tasks task_id kw').tasks
        = updateFirst (fun t => t.id == task_id)
            (fun t => { applyKwargs kw' t with updated_at := now }) tasks := by
      unfold update_task_apply
      by_cases hs : saveOk = true <;> simp [hs]
    rw [hx]
    exact map_updateFirst proj _ _ tasks (happly kw' hkw')
  rw [update_task]
  cases hfind : get_task_by_id tasks task_id with
  | none => rfl
  | some t =>
    cases hk : kwargsNameVal kw with
    | none => exact htail kw (Or.inl rfl)
    | some v =>
      cases v with
      | none => exact htail kw (Or.inl rfl)
      | some s =>
        by_cases hse : s = ""
        · simp only [hse, if_pos rfl]
          exact htail kw (Or.inl rfl)
        · simp only [if_neg hse]
          by_cases h1 : pyStrip s = ""
          · simp only [if_pos h1]
          · simp only [if_neg h1]
            by_cases h2 : 200 < (pyStrip s).length
            · simp only [if_pos h2]
            · simp only [if_neg h2]
              exact htail (setKwargsName kw (pyStrip s)) (Or.inr ⟨_, rfl⟩)

/-- Claim C7 (counterexample): a task whose `due_date` is null does NOT
round-trip through `to_dict`/`from_dict`, because `from_dict` builds the
task through the constructor, which replaces an absent due date by the
default `now + 7 days`. -/
theorem roundtrip_fails_on_none_due_date :
    Task.from_dict "g" 0
        (Task.to_dict ⟨"i", "n", "Medium", none, "General", "Pending", "", 0, 0⟩)
      ≠ ⟨"i", "n", "Medium", none, "General", "Pending", "", 0, 0⟩
    ∧ (Task.from_dict "g" 0
        (Task.to_dict ⟨"i", "n", "Medium", none, "General", "Pending", "", 0, 0⟩)).due_date
      = some sevenDays := by
  decide

/-- Claim C7 (amended): serializing with `to_dict` and deserializing with
`from_dict` yields an identical task — all nine fields, timestamps exactly,
hence in particular to second-level precision — for every task that has a
due date. -/
theorem to_dict_from_dict_roundtrip (genId : String) (now : DateTime)
    (t : Task) (d : DateTime) (h : t.due_date = some d) :
    Task.from_dict genId now (Task.to_dict t) = t :=
  from_dict_to_dict_of_some genId now t d h

/-- Witness for the round-trip theorem at a concrete task. -/
theorem to_dict_from_dict_roundtrip_witness :
    Task.from_dict "g" 3
        (Task.to_dict ⟨"i", "n", "High", some 42, "Work", "Pending", "x", 1, 2⟩)
      = ⟨"i", "n", "High", some 42, "Work", "Pending", "x", 1, 2⟩ :=
  to_dict_from_dict_roundtrip "g" 3 _ 42 rfl

/-- Claim C8 (confirmed): `is_overdue` is true exactly when a due date
exists, the status is not Completed, and the due date is strictly before
the current time; in particular a completed task is never overdue. -/
theorem is_overdue_spec (t : Task) (now : DateTime) :
    (t.is_overdue now = true ↔
      ∃ d, t.due_date = some d ∧ t.status ≠ "Completed" ∧ d < now)
    ∧ (t.status = "Completed" → t.is_overdue now = false) := by
  constructor
  · cases h : t.due_date with
    | none => simp [Task.is_overdue, h]
    | some d =>
      by_cases hs : t.status = "Completed" <;>
        simp [Task.is_overdue, h, hs]
  · intro hs
    cases h : t.due_date with
    | none => simp [Task.is_overdue, h]
    | some d => simp [Task.is_overdue, h, hs]

/-- Witness for `is_overdue_spec`: a completed task with a long-past due
date is not overdue. -/
theorem is_overdue_spec_witness :
    Task.is_overdue ⟨"i", "n", "Medium", some 0, "General", "Completed", "", 0, 0⟩ 999
      = false :=
  (is_overdue_spec ⟨"i", "n", "Medium", some 0, "General", "Completed", "", 0, 0⟩ 999).2 rfl

/-- Claim C6 (counterexample): on a record whose due-date string is
malformed, `from_dict` does NOT leave the task with a null due date — the
constructor substitutes the default `now + 7 days`. -/
theorem from_dict_malformed_due_date_not_null :
    (Task.from_dict "g" 0
        ⟨some "i", "n", none, DateField.malformed, none, none, none,
          DateField.malformed, DateField.malformed⟩).due_date = some sevenDays
    ∧ (Task.from_dict "g" 0
        ⟨some "i", "n", none, DateField.malformed, none, none, none,
          DateField.malformed, DateField.malformed⟩).due_date ≠ none := by
  decide

/-- Claim C6 (amended): `from_dict` substitutes the documented defaults for
missing optional fields and tolerates malformed date strings without
failing: malformed `created_at`/`updated_at` fall back to the current time,
while a malformed `due_date` ends up as the constructor default
`now + 7 days` (not null). -/
theorem from_dict_defaults_and_fallbacks (genId : String) (now : DateTime)
    (data : TaskRecord) :
    (data.priority = none → (Task.from_dict genId now data).priority = "Medium")
    ∧ (data.category = none → (Task.from_dict genId now data).category = "General")
    ∧ (data.status = none → (Task.from_dict genId now data).status = "Pending")
    ∧ (data.description = none → (Task.from_dict genId now data).description = "")
    ∧ (data.created_at = DateField.malformed →
        (Task.from_dict genId now data).created_at = now)
    ∧ (data.updated_at = DateField.malformed →
        (Task.from_dict genId now data).updated_at = now)
    ∧ (data.due_date = DateField.malformed →
        (Task.from_dict genId now data).due_date = some (now + sevenDays)) := by
  cases data
  refine ⟨?_, ?_, ?_, ?_, ?_, ?_, ?_⟩ <;> intro h <;>
    simp_all [Task.from_dict, Task.init]

/-- Witness for `from_dict_defaults_and_fallbacks` at a concrete record. -/
theorem from_dict_defaults_and_fallbacks_witness :
    (Task.from_dict "g" 5
        ⟨some "i", "n", none, DateField.malformed, none, none, none,
          DateField.malformed, DateField.malformed⟩).priority = "Medium"
    ∧ (Task.from_dict "g" 5
        ⟨some "i", "n", none, DateField.malformed, none, none, none,
          DateField.malformed, DateField.malformed⟩).due_date = some (5 + sevenDays) :=
  ⟨(from_dict_defaults_and_fallbacks "g" 5
      ⟨some "i", "n", none, DateField.malformed, none, none, none,
        DateField.malformed, DateField.malformed⟩).1 rfl,
   (from_dict_defaults_and_fallbacks "g" 5
      ⟨some "i", "n", none, DateField.malformed, none, none, none,
        DateField.malformed, DateField.malformed⟩).2.2.2.2.2.2 rfl⟩

/-- Claim C5 (counterexample): passing `due_date=None` to `update_task`
does NOT clear the stored due date — `None` values are skipped by the
update loop — and the call still reports success. -/
theorem due_date_not_clearable :
    (update_task true 7 []
        [⟨"id0", "A", "Medium", some 42, "General", "Pending", "", 0, 0⟩]
        "id0" [FieldUpd.due_date none]).ok = true
    ∧ ((update_task true 7 []
        [⟨"id0", "A", "Medium", some 42, "General", "Pending", "", 0, 0⟩]
        "id0" [FieldUpd.due_date none]).tasks).map Task.due_date = [some 42] := by
  decide

/-- Claim C5 (amended): a task created without a due date gets
`creation time + 7 days`; but `update_task` cannot clear a due date back to
null — any call that supplies no non-`None` due-date value leaves every
task's due date unchanged. -/
theorem due_date_default_and_not_clearable :
    (∀ (genId : String) (now : DateTime)
        (name priority category status0 description : String),
      (Task.init genId now name priority none category status0 description).due_date
        = some (now + sevenDays))
    ∧ (∀ (saveOk : Bool) (now : DateTime) (db : List TaskRecord)
        (tasks : List Task) (task_id : String) (kw : List FieldUpd),
      (∀ d, FieldUpd.due_date (some d) ∉ kw) →
      ((update_task saveOk now db tasks task_id kw).tasks).map Task.due_date
        = tasks.map Task.due_date) := by
  constructor
  · intro genId now name priority category status0 description
    rfl
  · intro saveOk now db tasks task_id kw h
    refine update_task_tasks_map Task.due_date saveOk now db tasks task_id kw ?_
    intro kw' hkw' t
    show (applyKwargs kw' t).due_date = t.due_date
    rcases hkw' with rfl | ⟨n, rfl⟩
    · exact applyKwargs_due_date kw' t h
    · exact applyKwargs_due_date _ t (setKwargsName_due_date kw n h)

/-- Witness for `due_date_default_and_not_clearable` at a concrete call. -/
theorem due_date_default_and_not_clearable_witness :
    (Task.init "g" 10 "n" "Medium" none "General" "Pending" "").due_date
      = some (10 + sevenDays)
    ∧ ((update_task true 7 []
        [⟨"id0", "A", "Medium", some 42, "General", "Pending", "", 0, 0⟩]
        "id0" [FieldUpd.status (some "Completed")]).tasks).map Task.due_date
      = [some 42] := by
  refine ⟨due_date_default_and_not_clearable.1 "g" 10 "n" "Medium" "General" "Pending" "", ?_⟩
  have h := due_date_default_and_not_clearable.2 true 7 []
      [⟨"id0", "A", "Medium", some 42, "General", "Pending", "", 0, 0⟩]
      "id0" [FieldUpd.status (some "Completed")]
      (by intro d hd; simp at hd)
  simpa using h

/-- Claim C4 (counterexample): `update_task` happily overwrites the id when
the caller supplies an `id` keyword — the dynamic setattr loop treats `id`
like any other attribute, so the id ["id0"] becomes ["zz"]. -/
theorem update_task_can_change_id :
    ((update_task true 5 []
        [⟨"id0", "A", "Medium", some 42, "General", "Pending", "", 0, 0⟩]
        "id0" [FieldUpd.id (some "zz")]).tasks).map Task.id = ["zz"]
    ∧ ("zz" : String) ≠ "id0"
    ∧ (update_task true 5 []
        [⟨"id0", "A", "Medium", some 42, "General", "Pending", "", 0, 0⟩]
        "id0" [FieldUpd.id (some "zz")]).ok = true := by
  decide

/-- Claim C4 (amended): ids are immutable under every `update_task` call
that does not supply an `id` field update; only an explicit `id` keyword
(as exhibited by the counterexample) can change an id. -/
theorem ids_preserved_without_id_kwarg (saveOk : Bool) (now : DateTime)
    (db : List TaskRecord) (tasks : List Task) (task_id : String)
    (kw : List FieldUpd) (h : ∀ v, FieldUpd.id (some v) ∉ kw) :
    ((update_task saveOk now db tasks task_id kw).tasks).map Task.id
      = tasks.map Task.id := by
  refine update_task_tasks_map Task.id saveOk now db tasks task_id kw ?_
  intro kw' hkw' t
  show (applyKwargs kw' t).id = t.id
  rcases hkw' with rfl | ⟨n, rfl⟩
  · exact applyKwargs_id kw' t h
  · exact applyKwargs_id _ t (setKwargsName_id kw n h)

/-- Witness for `ids_preserved_without_id_kwarg` at a concrete call. -/
theorem ids_preserved_without_id_kwarg_witness :
    ((update_task true 5 []
        [⟨"id0", "A", "Medium", some 42, "General", "Pending", "", 0, 0⟩]
        "id0" [FieldUpd.status (some "Completed")]).tasks).map Task.id
      = ["id0"] := by
  have h := ids_preserved_without_id_kwarg true 5 []
      [⟨"id0", "A", "Medium", some 42, "General", "Pending", "", 0, 0⟩]
      "id0" [FieldUpd.status (some "Completed")]
      (by intro v hv; simp at hv)
  simpa using h

/-- Claim C3 (the code bug): updating a task's name to the empty string is
NOT rejected.  The validation guard `if kwargs["name"]` treats the empty
string as falsy and skips validation, the setattr loop then stores the
empty name (it only skips `None`), `updated_at` is refreshed and the call
reports success — while a whitespace-only name (truthy, strips to empty)
IS rejected, and `add_task` rejects empty names, showing the guard is a
slip. -/
theorem update_empty_name_bug :
    (update_task true 100 []
        [⟨"id0", "Original", "Medium", some 5, "General", "Pending", "", 0, 0⟩]
        "id0" [FieldUpd.name (some "")]).ok = true
    ∧ (update_task true 100 []
        [⟨"id0", "Original", "Medium", some 5, "General", "Pending", "", 0, 0⟩]
        "id0" [FieldUpd.name (some "")]).tasks
      = [⟨"id0", "", "Medium", some 5, "General", "Pending", "", 0, 100⟩]
    ∧ (update_task true 100 []
        [⟨"id0", "Original", "Medium", some 5, "General", "Pending", "", 0, 0⟩]
        "id0" [FieldUpd.name (some " ")]).ok = false := by
  decide

/-- Claim C2 (counterexample): when the save fails, `update_task` reports
failure but does NOT roll the in-memory mutation back — the task keeps its
new name, so the collection differs from its pre-call state. -/
theorem update_no_rollback_counterexample :
    (update_task false 7 []
        [⟨"id0", "A", "Medium", some 5, "General", "Pending", "", 0, 0⟩]
        "id0" [FieldUpd.name (some "B")]).ok = false
    ∧ (update_task false 7 []
        [⟨"id0", "A", "Medium", some 5, "General", "Pending", "", 0, 0⟩]
        "id0" [FieldUpd.name (some "B")]).tasks
      ≠ [⟨"id0", "A", "Medium", some 5, "General", "Pending", "", 0, 0⟩] := by
  decide

/-- Claim C2 (amended): on save failure every operation reports failure and
leaves persistence untouched; `add_task` restores the collection exactly,
`delete_task` restores it as a multiset (the removed task is re-appended at
the END, not at its old position), `clear_completed_tasks` reloads from
persistence (which reproduces the pre-call collection when memory and
storage were in sync and every task had a due date) — but `update_task`
performs no rollback at all. -/
theorem save_failure_behavior (gen : Nat → String) (now : DateTime)
    (db : List TaskRecord) (tasks : List Task) :
    (∀ (genId name priority category description : String)
        (dd : Option DateTime),
      pyStrip name ≠ "" → (pyStrip name).length ≤ 200 →
      (add_task false genId now db tasks name priority dd category
          description).tasks = tasks
      ∧ (add_task false genId now db tasks name priority dd category
          description).ok = false
      ∧ (add_task false genId now db tasks name priority dd category
          description).db = db)
    ∧ (∀ (task_id : String) (t : Task),
      get_task_by_id tasks task_id = some t →
      List.Perm (delete_task false db tasks task_id).tasks tasks
      ∧ (delete_task false db tasks task_id).ok = false
      ∧ (delete_task false db tasks task_id).db = db)
    ∧ ((tasks.filter (fun t => t.status == "Completed")).isEmpty = false →
      (clear_completed_tasks false gen now db tasks).tasks
          = load_tasks gen now db
      ∧ (clear_completed_tasks false gen now db tasks).ok = false
      ∧ (db = tasks.map Task.to_dict → (∀ t ∈ tasks, t.due_date ≠ none) →
          (clear_completed_tasks false gen now db tasks).tasks = tasks))
    ∧ (∀ (task_id : String) (kw : List FieldUpd),
      (update_task false now db tasks task_id kw).ok = false
      ∧ (update_task false now db tasks task_id kw).db = db) := by
  refine ⟨?_, ?_, ?_, ?_⟩
  · intro genId name priority category description dd h1 h2
    have hx : add_task false genId now db tasks name priority dd category
        description = ⟨tasks, db, false, "Failed to save task to database"⟩ := by
      rw [add_task, if_neg h1, if_neg (by omega : ¬ 200 < (pyStrip name).length)]
      rfl
    rw [hx]
    exact ⟨rfl, rfl, rfl⟩
  · intro task_id t hfind
    have hx : delete_task false db tasks task_id
        = ⟨removeFirst (fun x => x.id == task_id) tasks ++ [t], db, false,
            "Failed to save changes"⟩ := by
      rw [delete_task, hfind]
      rfl
    rw [hx]
    refine ⟨?_, rfl, rfl⟩
    have hfind' : tasks.find? (fun x : Task => x.id == task_id) = some t := hfind
    have hperm := perm_cons_removeFirst (fun x : Task => x.id == task_id) tasks t hfind'
    exact (List.perm_append_singleton t _).trans hperm.symm
  · intro hne
    have hx : clear_completed_tasks false gen now db tasks
        = ⟨load_tasks gen now db, db, false, "Failed to save changes"⟩ := by
      rw [clear_completed_tasks]
      simp only [hne]
      rfl
    rw [hx]
    refine ⟨rfl, rfl, ?_⟩
    intro hdb hdue
    subst hdb
    exact load_tasks_map_to_dict gen now tasks hdue
  · intro task_id kw
    rw [update_task]
    cases hfind : get_task_by_id tasks task_id with
    | none => exact ⟨rfl, rfl⟩
    | some t =>
      cases hk : kwargsNameVal kw with
      | none => exact ⟨rfl, rfl⟩
      | some v =>
        cases v with
        | none => exact ⟨rfl, rfl⟩
        | some s =>
          by_cases hse : s = ""
          · simp [hse, update_task_apply]
          · by_cases h1 : pyStrip s = ""
            · simp [hse, h1]
            · by_cases h2 : 200 < (pyStrip s).length
              · simp [hse, h1, h2]
              · simp [hse, h1, h2, update_task_apply]

/-- Witness for `save_failure_behavior` at a concrete collection. -/
theorem save_failure_behavior_witness :
    (add_task false "g" 0
        [Task.to_dict ⟨"i", "A", "Medium", some 5, "Work", "Completed", "", 0, 0⟩]
        [⟨"i", "A", "Medium", some 5, "Work", "Completed", "", 0, 0⟩]
        "B" "Low" none "General" "").tasks
      = [⟨"i", "A", "Medium", some 5, "Work", "Completed", "", 0, 0⟩]
    ∧ List.Perm
        (delete_task false
          [Task.to_dict ⟨"i", "A", "Medium", some 5, "Work", "Completed", "", 0, 0⟩]
          [⟨"i", "A", "Medium", some 5, "Work", "Completed", "", 0, 0⟩] "i").tasks
        [⟨"i", "A", "Medium", some 5, "Work", "Completed", "", 0, 0⟩]
    ∧ (clear_completed_tasks false (fun _ => "g") 0
        [Task.to_dict ⟨"i", "A", "Medium", some 5, "Work", "Completed", "", 0, 0⟩]
        [⟨"i", "A", "Medium", some 5, "Work", "Completed", "", 0, 0⟩]).tasks
      = [⟨"i", "A", "Medium", some 5, "Work", "Completed", "", 0, 0⟩]
    ∧ (update_task false 0
        [Task.to_dict ⟨"i", "A", "Medium", some 5, "Work", "Completed", "", 0, 0⟩]
        [⟨"i", "A", "Medium", some 5, "Work", "Completed", "", 0, 0⟩]
        "i" []).ok = false := by
  have T := save_failure_behavior (fun _ => "g") 0
      [Task.to_dict ⟨"i", "A", "Medium", some 5, "Work", "Completed", "", 0, 0⟩]
      [⟨"i", "A", "Medium", some 5, "Work", "Completed", "", 0, 0⟩]
  exact ⟨(T.1 "g" "B" "Low" "General" "" none (by decide) (by decide)).1,
    (T.2.1 "i" ⟨"i", "A", "Medium", some 5, "Work", "Completed", "", 0, 0⟩
      (by decide)).1,
    (T.2.2.1 (by decide)).2.2 rfl (by decide),
    (T.2.2.2 "i" []).1⟩

/-- Counting a collection whose statuses all lie in the four enumerated
values partitions its length by status. -/
theorem status_partition (ts : List Task)
    (h : ∀ t ∈ ts, t.status = "Pending" ∨ t.status = "In Progress"
        ∨ t.status = "Completed" ∨ t.status = "Cancelled") :
    ts.countP (fun t => t.status == "Pending")
      + ts.countP (fun t => t.status == "In Progress")
      + ts.countP (fun t => t.status == "Completed")
      + ts.countP (fun t => t.status == "Cancelled") = ts.length := by
  induction ts with
  | nil => rfl
  | cons t ts ih =>
    have ht := h t (List.mem_cons_self t ts)
    have ih' := ih (fun x hx => h x (List.mem_cons_of_mem _ hx))
    simp only [List.countP_cons, List.length_cons]
    rcases ht with h1 | h1 | h1 | h1 <;> simp [h1] <;> omega

/-- Claim C1 (counterexample): for a collection holding one task whose
status is In Progress, the statistics report a pending count of 0, while
total minus completed is 1 — the code counts the literal Pending status,
not the complement of Completed. -/
theorem pending_ne_total_sub_completed :
    (get_task_statistics 0
        [⟨"i", "n", "Medium", some 0, "General", "In Progress", "", 0, 0⟩]).pending_tasks
      = 0
    ∧ (get_task_statistics 0
        [⟨"i", "n", "Medium", some 0, "General", "In Progress", "", 0, 0⟩]).total_tasks
      - (get_task_statistics 0
        [⟨"i", "n", "Medium", some 0, "General", "In Progress", "", 0, 0⟩]).completed_tasks
      = 1 := by
  constructor <;> decide

/-- Claim C1 (amended): `get_task_statistics` reports a pending count equal
to the number of tasks whose status is literally Pending; whenever all
statuses lie in the four enumerated values, the total therefore splits as
pending + in-progress + completed + cancelled, so In Progress and Cancelled
tasks are NOT folded into the pending count. -/
theorem pending_counts_literal_status (now : DateTime) (ts : List Task) :
    (get_task_statistics now ts).pending_tasks
      = ts.countP (fun t => t.status == "Pending")
    ∧ ((∀ t ∈ ts, t.status = "Pending" ∨ t.status = "In Progress"
          ∨ t.status = "Completed" ∨ t.status = "Cancelled") →
      (get_task_statistics now ts).total_tasks
        = (get_task_statistics now ts).pending_tasks
          + ts.countP (fun t => t.status == "In Progress")
          + (get_task_statistics now ts).completed_tasks
          + ts.countP (fun t => t.status == "Cancelled")) := by
  have hpend : (get_task_statistics now ts).pending_tasks
      = ts.countP (fun t => t.status == "Pending") := by
    show (get_tasks_by_status ts (some "Pending")).length = _
    rw [get_tasks_by_status, if_neg (by decide : ¬ ("Pending" : String) = "")]
    exact (List.countP_eq_length_filter _ ts).symm
  have hcomp : (get_task_statistics now ts).completed_tasks
      = ts.countP (fun t => t.status == "Completed") := by
    show (get_tasks_by_status ts (some "Completed")).length = _
    rw [get_tasks_by_status, if_neg (by decide : ¬ ("Completed" : String) = "")]
    exact (List.countP_eq_length_filter _ ts).symm
  have htot : (get_task_statistics now ts).total_tasks = ts.length := rfl
  refine ⟨hpend, fun h => ?_⟩
  have hp := status_partition ts h
  rw [htot, hpend, hcomp]
  omega

/-- Witness for `pending_counts_literal_status` on a one-task In Progress
collection. -/
theorem pending_counts_literal_status_witness :
    (get_task_statistics 0
        [⟨"i", "n", "Medium", some 0, "General", "In Progress", "", 0, 0⟩]).pending_tasks
      = [(⟨"i", "n", "Medium", some 0, "General", "In Progress", "", 0, 0⟩ : Task)].countP
          (fun t => t.status == "Pending")
    ∧ (get_task_statistics 0
        [⟨"i", "n", "Medium", some 0, "General", "In Progress", "", 0, 0⟩]).total_tasks
      = (get_task_statistics 0
          [⟨"i", "n", "Medium", some 0, "General", "In Progress", "", 0, 0⟩]).pending_tasks
        + [(⟨"i", "n", "Medium", some 0, "General", "In Progress", "", 0, 0⟩ : Task)].countP
            (fun t => t.status == "In Progress")
        + (get_task_statistics 0
            [⟨"i", "n", "Medium", some 0, "General", "In Progress", "", 0, 0⟩]).completed_tasks
        + [(⟨"i", "n", "Medium", some 0, "General", "In Progress", "", 0, 0⟩ : Task)].countP
            (fun t => t.status == "Cancelled") :=
  ⟨(pending_counts_literal_status 0
      [⟨"i", "n", "Medium", some 0, "General", "In Progress", "", 0, 0⟩]).1,
   (pending_counts_literal_status 0
      [⟨"i", "n", "Medium", some 0, "General", "In Progress", "", 0, 0⟩]).2
     (by decide)⟩

/-- A single setattr step is the identity on ignorable keywords. -/
theorem setattrStep_ignorable (t : Task) (u : FieldUpd)
    (h : u.ignorable = true) : setattrStep t u = t := by
  cases u with
  | id v => cases v with
    | none => rfl
    | some v => simp [FieldUpd.ignorable] at h
  | name v => cases v with
    | none => rfl
    | some v => simp [FieldUpd.ignorable] at h
  | priority v => cases v with
    | none => rfl
    | some v => simp [FieldUpd.ignorable] at h
  | due_date v => cases v with
    | none => rfl
    | some v => simp [FieldUpd.ignorable] at h
  | category v => cases v with
    | none => rfl
    | some v => simp [FieldUpd.ignorable] at h
  | status v => cases v with
    | none => rfl
    | some v => simp [FieldUpd.ignorable] at h
  | description v => cases v with
    | none => rfl
    | some v => simp [FieldUpd.ignorable] at h
  | created_at v => cases v with
    | none => rfl
    | some v => simp [FieldUpd.ignorable] at h
  | updated_at v => cases v with
    | none => rfl
    | some v => simp [FieldUpd.ignorable] at h
  | unknown k b => rfl

/-- The whole update loop is the identity when every keyword is
ignorable. -/
theorem applyKwargs_ignorable (kw : List FieldUpd) (t : Task)
    (h : ∀ u ∈ kw, u.ignorable = true) : applyKwargs kw t = t := by
  induction kw generalizing t with
  | nil => rfl
  | cons u rest ih =>
    have hstep : setattrStep t u = t :=
      setattrStep_ignorable t u (h u (List.mem_cons_self u rest))
    have hx : applyKwargs (u :: rest) t = applyKwargs rest (setattrStep t u) := rfl
    rw [hx, hstep]
    exact ih t (fun x hx' => h x (List.mem_cons_of_mem _ hx'))

/-- An all-ignorable keyword dictionary holds no truthy name value. -/
theorem kwargsNameVal_ignorable (kw : List FieldUpd)
    (h : ∀ u ∈ kw, u.ignorable = true) (s : String) :
    kwargsNameVal kw ≠ some (some s) := by
  intro hs
  rw [kwargsNameVal] at hs
  cases hf : kw.find? (fun u => match u with
      | FieldUpd.name _ => true | _ => false) with
  | none => rw [hf] at hs; exact Option.noConfusion hs
  | some u =>
    rw [hf] at hs
    have hm := List.mem_of_find?_eq_some hf
    have hu := h u hm
    cases u with
    | name v =>
      have hv : some v = some (some s) := hs
      have : v = some s := Option.some.inj hv
      subst this
      simp [FieldUpd.ignorable] at hu
    | id v => exact Option.noConfusion hs
    | priority v => exact Option.noConfusion hs
    | due_date v => exact Option.noConfusion hs
    | category v => exact Option.noConfusion hs
    | status v => exact Option.noConfusion hs
    | description v => exact Option.noConfusion hs
    | created_at v => exact Option.noConfusion hs
    | updated_at v => exact Option.noConfusion hs
    | unknown k b => exact Option.noConfusion hs

/-- Claim C10 (confirmed): `update_task` silently ignores keywords that are
not `Task` attributes and keywords whose value is `None` (each such field
keeps its prior value, with no error); a call supplying only such keywords
still refreshes `updated_at` of the addressed task, and, when the save
succeeds, reports success and persists the collection. -/
theorem update_task_ignores_unknown_and_none_fields (saveOk : Bool)
    (now : DateTime) (db : List TaskRecord) (tasks : List Task)
    (task_id : String) (t : Task) (kw : List FieldUpd)
    (hfound : get_task_by_id tasks task_id = some t)
    (hign : ∀ u ∈ kw, u.ignorable = true) :
    (∀ (u : FieldUpd) (x : Task), u.ignorable = true → setattrStep x u = x)
    ∧ (update_task saveOk now db tasks task_id kw).tasks
        = updateFirst (fun x => x.id == task_id)
            (fun x => { x with updated_at := now }) tasks
    ∧ (saveOk = true →
        (update_task saveOk now db tasks task_id kw).ok = true
        ∧ (update_task saveOk now db tasks task_id kw).db
            = ((update_task saveOk now db tasks task_id kw).tasks).map
                Task.to_dict) := by
  have hred : update_task saveOk now db tasks task_id kw
      = update_task_apply saveOk now db tasks task_id kw := by
    rw [update_task, hfound]
    cases hk : kwargsNameVal kw with
    | none => rfl
    | some v =>
      cases v with
      | none => rfl
      | some s => exact absurd hk (kwargsNameVal_ignorable kw hign s)
  have hfun : (fun x => { applyKwargs kw x with updated_at := now })
      = (fun x : Task => { x with updated_at := now }) := by
    funext x
    rw [applyKwargs_ignorable kw x hign]
  have htasks : (update_task_apply saveOk now db tasks task_id kw).tasks
      = updateFirst (fun x => x.id == task_id)
          (fun x => { x with updated_at := now }) tasks := by
    rw [update_task_apply, hfun]
    by_cases hs : saveOk = true <;> simp [hs]
  refine ⟨fun u x hu => setattrStep_ignorable x u hu, ?_, ?_⟩
  · rw [hred]
    exact htasks
  · intro hs
    subst hs
    rw [hred]
    exact ⟨rfl, rfl⟩

/-- Witness for `update_task_ignores_unknown_and_none_fields`: a call
supplying only an unknown attribute and a `None` value. -/
theorem update_task_ignores_unknown_and_none_fields_witness :
    (update_task true 3 []
        [⟨"id0", "A", "Medium", some 5, "General", "Pending", "", 0, 0⟩]
        "id0" [FieldUpd.unknown "color" false, FieldUpd.priority none]).tasks
      = updateFirst (fun x => x.id == "id0")
          (fun x => { x with updated_at := 3 })
          [⟨"id0", "A", "Medium", some 5, "General", "Pending", "", 0, 0⟩]
    ∧ (update_task true 3 []
        [⟨"id0", "A", "Medium", some 5, "General", "Pending", "", 0, 0⟩]
        "id0" [FieldUpd.unknown "color" false, FieldUpd.priority none]).ok
      = true :=
  ⟨(update_task_ignores_unknown_and_none_fields true 3 []
      [⟨"id0", "A", "Medium", some 5, "General", "Pending", "", 0, 0⟩]
      "id0" ⟨"id0", "A", "Medium", some 5, "General", "Pending", "", 0, 0⟩
      [FieldUpd.unknown "color" false, FieldUpd.priority none]
      (by decide) (by decide)).2.1,
   ((update_task_ignores_unknown_and_none_fields true 3 []
      [⟨"id0", "A", "Medium", some 5, "General", "Pending", "", 0, 0⟩]
      "id0" ⟨"id0", "A", "Medium", some 5, "General", "Pending", "", 0, 0⟩
      [FieldUpd.unknown "color" false, FieldUpd.priority none]
      (by decide) (by decide)).2.2 rfl).1⟩

/-- Comparison by a natural-number key is transitive. -/
theorem key_le_trans {α : Type} (key : α → Nat) (a b c : α)
    (hab : decide (key a ≤ key b) = true)
    (hbc : decide (key b ≤ key c) = true) :
    decide (key a ≤ key c) = true := by
  simp only [decide_eq_true_eq] at *
  omega

/-- Comparison by a natural-number key is total. -/
theorem key_le_total {α : Type} (key : α → Nat) (a b : α) :
    (decide (key a ≤ key b) || decide (key b ≤ key a)) = true := by
  simp only [Bool.or_eq_true, decide_eq_true_eq]
  omega

/-- Stability of the stable sort, phrased on key classes: sorting by a key
leaves the subsequence of elements with any fixed key value unchanged. -/
theorem mergeSort_key_filter {α : Type} (key : α → Nat) (r : Nat)
    (l : List α) :
    (List.mergeSort l (fun a b => decide (key a ≤ key b))).filter
        (fun x => key x == r)
      = l.filter (fun x => key x == r) := by
  have hpair : (l.filter (fun x => key x == r)).Pairwise
      (fun a b => (decide (key a ≤ key b) : Bool)) := by
    apply List.pairwise_of_forall_mem_list
    intro a ha b hb
    simp only [List.mem_filter, beq_iff_eq] at ha hb
    simp [ha.2, hb.2]
  have hsub := List.sublist_mergeSort (key_le_trans key) (key_le_total key)
      hpair (List.filter_sublist l)
  have hsub2 := hsub.filter (fun x => key x == r)
  rw [List.filter_filter] at hsub2
  have heq : (fun x => (key x == r) && (key x == r))
      = (fun x => key x == r) := by
    funext x
    cases h : key x == r <;> simp [h]
  rw [heq] at hsub2
  refine (hsub2.eq_of_length ?_).symm
  rw [← List.countP_eq_length_filter, ← List.countP_eq_length_filter]
  exact ((List.mergeSort_perm l _).countP_eq _).symm

/-- Claim C9 (confirmed): `sort_tasks` with key priority permutes the
input, orders it by the priority rank (High 0 before Medium 1 before Low
2, unknown priorities 3 last), keeps the original relative order inside
every priority class (stability), and sorts the concrete priority list
[Low, High, Medium] to [High, Medium, Low]. -/
theorem sort_tasks_priority_spec (ts : List Task) :
    List.Perm (sort_tasks ts "priority") ts
    ∧ List.Pairwise
        (fun a b => priority_order a.priority ≤ priority_order b.priority)
        (sort_tasks ts "priority")
    ∧ (∀ r, (sort_tasks ts "priority").filter
          (fun t => priority_order t.priority == r)
        = ts.filter (fun t => priority_order t.priority == r))
    ∧ sort_tasks
        [⟨"1", "a", "Low", some 0, "G", "Pending", "", 0, 0⟩,
         ⟨"2", "b", "High", some 0, "G", "Pending", "", 0, 0⟩,
         ⟨"3", "c", "Medium", some 0, "G", "Pending", "", 0, 0⟩] "priority"
      = [⟨"2", "b", "High", some 0, "G", "Pending", "", 0, 0⟩,
         ⟨"3", "c", "Medium", some 0, "G", "Pending", "", 0, 0⟩,
         ⟨"1", "a", "Low", some 0, "G", "Pending", "", 0, 0⟩] := by
  have hs : ∀ (l : List Task), sort_tasks l "priority"
      = List.mergeSort l
          (fun a b => decide (priority_order a.priority ≤ priority_order b.priority)) :=
    fun l => rfl
  refine ⟨?_, ?_, ?_, ?_⟩
  · rw [hs]
    exact List.mergeSort_perm ts _
  · rw [hs]
    have h := List.sorted_mergeSort
        (key_le_trans (fun t : Task => priority_order t.priority))
        (key_le_total (fun t : Task => priority_order t.priority)) ts
    exact h.imp (fun hab => of_decide_eq_true hab)
  · intro r
    rw [hs]
    exact mergeSort_key_filter (fun t : Task => priority_order t.priority) r ts
  · rw [hs]
    simp [List.mergeSort, List.merge, priority_order]

end Todo